import Mathlib

/-!
# Verification of the `bevy_game` voxel-terrain core

Shallow embedding of the destructible voxel-terrain subsystem of the
repository (`src/voxel/*.rs`, `src/core/constants.rs`) together with proofs
about its specification.

Modelling conventions:
* Rust `f32`/`f64` arithmetic is modelled by exact rational arithmetic (`ℚ`);
  all the constants appearing in the code are exactly representable.
* Rust `i32` is modelled by `ℤ`; `div_euclid` / `rem_euclid` become
  `Int.ediv` / `Int.emod` (both are Euclidean division).
* `bevy` vectors (`Vec3`, `IVec3`) become triples of `ℚ` / `ℤ`.
* Random number generation (`rand::thread_rng`, `gen_range`) is modelled by
  an oracle function, universally quantified in the theorems that involve it.
* ECS systems become explicit state-passing functions over the data they
  read and mutate.
-/

namespace BevyGame

/-- `core/constants.rs`: `BASE_CHUNK_SIZE = 32`. -/
def BASE_CHUNK_SIZE : ℕ := 32

/-- `core/constants.rs`: `VOXEL_SIZE = 0.1` metres. -/
def VOXEL_SIZE : ℚ := 1 / 10

/-- `core/constants.rs`: `LOD_DISTANCES = [50, 100, 200, 400, 800]`. -/
def LOD_DISTANCES : Fin 5 → ℚ
  | 0 => 50
  | 1 => 100
  | 2 => 200
  | 3 => 400
  | 4 => 800

-- ============================================================================
-- voxel_types.rs
-- ============================================================================

/-- `voxel_types.rs`: the `VoxelType` enum (closed set of materials). -/
inductive VoxelType where
  | Air
  | Dirt
  | Stone
  | Wood
  | Metal
  | Grass
  | Sand
  deriving DecidableEq, Repr

/-- `voxel_types.rs`: the fields of `VoxelProperties` that the verified layer
uses (`hardness`, `is_solid`, `drops_self`; the render color and display name
are irrelevant to every claim). -/
structure VoxelProperties where
  hardness : ℚ
  is_solid : Bool
  drops_self : Bool

namespace VoxelType

/-- `voxel_types.rs`: `VoxelType::properties`. -/
def properties : VoxelType → VoxelProperties
  | .Air   => ⟨0, false, false⟩
  | .Dirt  => ⟨1, true, true⟩
  | .Stone => ⟨5, true, true⟩
  | .Wood  => ⟨2, true, true⟩
  | .Metal => ⟨10, true, true⟩
  | .Grass => ⟨1, true, false⟩
  | .Sand  => ⟨1 / 2, true, true⟩

/-- `voxel_types.rs`: `VoxelType::is_solid` (everything except `Air`). -/
def is_solid : VoxelType → Bool
  | .Air => false
  | _ => true

/-- `voxel_types.rs`: `VoxelType::is_air`. -/
def is_air : VoxelType → Bool
  | .Air => true
  | _ => false

/-- `voxel_types.rs`: `VoxelType::from_density(density, world_y)`. -/
def from_density (density : ℚ) (world_y : ℚ) : VoxelType :=
  if density ≤ 0 then .Air
  else if world_y < 1 / 2 then .Stone
  else if world_y < 3 / 2 then .Dirt
  else if world_y < 8 / 5 then .Grass
  else .Dirt

end VoxelType

-- ============================================================================
-- tools.rs
-- ============================================================================

/-- `tools.rs`: the `ToolType` enum. -/
inductive ToolType where
  | Pickaxe
  | Axe
  | Shovel
  | Hoe
  | None
  deriving DecidableEq, Repr

/-- `tools.rs`: `ToolProperties` (`max_durability`, `speed_multiplier`;
the display name is irrelevant to every claim). -/
structure ToolProperties where
  max_durability : ℕ
  speed_multiplier : ℚ

namespace ToolType

/-- `tools.rs`: `ToolType::properties`. -/
def properties : ToolType → ToolProperties
  | .Pickaxe => ⟨100, 1⟩
  | .Axe     => ⟨100, 1⟩
  | .Shovel  => ⟨100, 1⟩
  | .Hoe     => ⟨100, 1⟩
  | .None    => ⟨0, 1 / 2⟩

/-- `tools.rs`: `ToolType::effectiveness_against`. -/
def effectiveness_against (t : ToolType) (v : VoxelType) : ℚ :=
  match t, v with
  | _, .Air => 1
  | .Pickaxe, .Stone => 3 / 2
  | .Pickaxe, .Metal => 3 / 2
  | .Axe, .Wood => 3 / 2
  | .Shovel, .Dirt => 3 / 2
  | .Shovel, .Grass => 3 / 2
  | .Shovel, .Sand => 3 / 2
  | _, _ => 3 / 10

end ToolType

-- ============================================================================
-- bevy vector types
-- ============================================================================

/-- `bevy::IVec3`, an integer 3-vector. -/
structure IVec3 where
  x : ℤ
  y : ℤ
  z : ℤ
  deriving DecidableEq, Repr

instance : Add IVec3 := ⟨fun a b => ⟨a.x + b.x, a.y + b.y, a.z + b.z⟩⟩

/-- `bevy::Vec3` modelled with exact rational components. -/
structure Vec3Q where
  x : ℚ
  y : ℚ
  z : ℚ
  deriving DecidableEq, Repr

instance : Add Vec3Q := ⟨fun a b => ⟨a.x + b.x, a.y + b.y, a.z + b.z⟩⟩

instance : Sub Vec3Q := ⟨fun a b => ⟨a.x - b.x, a.y - b.y, a.z - b.z⟩⟩

/-- Scalar multiplication `t • v` on `Vec3Q`. -/
def Vec3Q.scale (t : ℚ) (v : Vec3Q) : Vec3Q := ⟨t * v.x, t * v.y, t * v.z⟩

/-- Squared Euclidean length of a `Vec3Q` (`Vec3::length` is only ever
compared against non-negative bounds, so the square is an exact model). -/
def Vec3Q.normSq (v : Vec3Q) : ℚ := v.x * v.x + v.y * v.y + v.z * v.z

-- ============================================================================
-- destruction.rs: calculate_break_time
-- ============================================================================

/-- `destruction.rs`: `calculate_break_time(voxel_type, tool_type)`.
`base_time = 1.0`; if effectiveness or speed is exactly zero the sentinel
`999.0` is returned instead of dividing. -/
def calculate_break_time (voxel_type : VoxelType) (tool_type : ToolType) : ℚ :=
  let hardness := voxel_type.properties.hardness
  let effectiveness := tool_type.effectiveness_against voxel_type
  let speed := tool_type.properties.speed_multiplier
  let base_time : ℚ := 1
  if effectiveness = 0 ∨ speed = 0 then 999
  else base_time * hardness / (effectiveness * speed)

-- ============================================================================
-- destruction.rs: world_to_voxel_3d
-- ============================================================================

/-- `destruction.rs`: `world_to_voxel_3d(world_pos)` — returns
`(chunk_pos, local_pos, voxel_pos)`.  `floor` is `Int.floor` on `ℚ`;
`div_euclid` / `rem_euclid` are `ℤ` division `/` and `%`, which in Lean are
`Int.ediv` / `Int.emod`, the same Euclidean convention as Rust. -/
def world_to_voxel_3d (world_pos : Vec3Q) : IVec3 × IVec3 × IVec3 :=
  let voxel_x : ℤ := ⌊world_pos.x / VOXEL_SIZE⌋
  let voxel_y : ℤ := ⌊world_pos.y / VOXEL_SIZE⌋
  let voxel_z : ℤ := ⌊world_pos.z / VOXEL_SIZE⌋
  let chunk_x := voxel_x / (BASE_CHUNK_SIZE : ℤ)
  let chunk_y := voxel_y / (BASE_CHUNK_SIZE : ℤ)
  let chunk_z := voxel_z / (BASE_CHUNK_SIZE : ℤ)
  let local_x := voxel_x % (BASE_CHUNK_SIZE : ℤ)
  let local_y := voxel_y % (BASE_CHUNK_SIZE : ℤ)
  let local_z := voxel_z % (BASE_CHUNK_SIZE : ℤ)
  (⟨chunk_x, chunk_y, chunk_z⟩, ⟨local_x, local_y, local_z⟩,
    ⟨voxel_x, voxel_y, voxel_z⟩)

-- ============================================================================
-- chunk.rs: BaseChunk generation
-- ============================================================================

/-- `chunk.rs` (`BaseChunk::new`): world coordinate of local grid index `i`
along an axis of the chunk at chunk coordinate `c`:
`(c * BASE_CHUNK_SIZE + i) as f64 * VOXEL_SIZE`. -/
def worldCoord (c : ℤ) (i : ℕ) : ℚ :=
  ((c * (BASE_CHUNK_SIZE : ℤ) : ℤ) + (i : ℤ)) * VOXEL_SIZE

/-- `chunk.rs` (`BaseChunk::new`): density written at local grid index
`(x, y, z)` of the chunk at `position`, for a noise function `noise`
(the fixed-seed `Perlin::get`):
`height = 1.5 + noise(world_x * 0.2, world_z * 0.2) * 0.5`,
`density = height - world_y`. -/
def genDensity (noise : ℚ → ℚ → ℚ) (position : IVec3) (x y z : ℕ) : ℚ :=
  let world_x := worldCoord position.x x
  let world_y := worldCoord position.y y
  let world_z := worldCoord position.z z
  let height := 3 / 2 + noise (world_x * (1 / 5)) (world_z * (1 / 5)) * (1 / 2)
  height - world_y

/-- `chunk.rs`: the generated fields of a `BaseChunk` (densities on the
`(N+1)³` grid, materials on the `N³` grid, chunk position).  The LOD level
and dirty flag are fixed at creation and irrelevant to C5/C6. -/
structure BaseChunkGen where
  densities : Fin (BASE_CHUNK_SIZE + 1) → Fin (BASE_CHUNK_SIZE + 1) →
    Fin (BASE_CHUNK_SIZE + 1) → ℚ
  voxel_types : Fin BASE_CHUNK_SIZE → Fin BASE_CHUNK_SIZE →
    Fin BASE_CHUNK_SIZE → VoxelType
  position : IVec3

/-- `chunk.rs`: `BaseChunk::new(position, noise_generator)` — fills every
density cell from `genDensity` and every material cell from
`VoxelType::from_density(density, world_y)`. -/
def BaseChunkGen.new (noise : ℚ → ℚ → ℚ) (position : IVec3) : BaseChunkGen where
  densities := fun x y z => genDensity noise position x.val y.val z.val
  voxel_types := fun x y z =>
    VoxelType.from_density (genDensity noise position x.val y.val z.val)
      (worldCoord position.y y.val)
  position := position

-- ============================================================================
-- chunk.rs: ChunkLOD
-- ============================================================================

/-- `chunk.rs`: the `ChunkLOD` enum. -/
inductive ChunkLOD where
  | Ultra
  | High
  | Medium
  | Low
  | Minimal
  deriving DecidableEq, Repr

namespace ChunkLOD

/-- `chunk.rs`: `ChunkLOD::from_distance`. -/
def from_distance (distance : ℚ) : ChunkLOD :=
  if distance < LOD_DISTANCES 0 then .Ultra
  else if distance < LOD_DISTANCES 1 then .High
  else if distance < LOD_DISTANCES 2 then .Medium
  else if distance < LOD_DISTANCES 3 then .Low
  else .Minimal

/-- `chunk.rs`: `ChunkLOD::merge_size`. -/
def merge_size : ChunkLOD → ℕ
  | .Ultra => 1
  | .High => 2
  | .Medium => 4
  | .Low => 8
  | .Minimal => 16

end ChunkLOD

-- ============================================================================
-- drops.rs: VoxelDrop lifecycle
-- ============================================================================

/-- `drops.rs`: the `VoxelDrop` component.  The initial velocity is random in
the source; here it is an explicit argument. -/
structure VoxelDropM where
  voxel_type : VoxelType
  quantity : ℕ
  spawn_time : ℚ
  velocity : Vec3Q
  can_collect : Bool

namespace VoxelDropM

/-- `drops.rs`: `VoxelDrop::new` — `can_collect` starts `false`. -/
def new (voxel_type : VoxelType) (quantity : ℕ) (current_time : ℚ)
    (velocity : Vec3Q) : VoxelDropM :=
  ⟨voxel_type, quantity, current_time, velocity, false⟩

/-- `drops.rs`: `VoxelDrop::should_despawn` — age strictly above 60 s. -/
def should_despawn (d : VoxelDropM) (current_time : ℚ) : Bool :=
  current_time - d.spawn_time > 60

end VoxelDropM

/-- `drops.rs` (`update_drops_system`): the collectibility update performed on
each drop every tick — after 1 second of age, mark collectible.  (The physics
integration in the same system does not touch `spawn_time` or
`can_collect`.) -/
def updateCanCollect (current_time : ℚ) (d : VoxelDropM) : VoxelDropM :=
  if current_time - d.spawn_time > 1 then { d with can_collect := true } else d

/-- `drops.rs`: `clean_old_drops_system` — despawns exactly the drops whose
`should_despawn` holds, reading nothing but the spawn time. -/
def clean_old_drops (current_time : ℚ) (drops : List VoxelDropM) :
    List VoxelDropM :=
  drops.filter (fun d => ! d.should_despawn current_time)

-- ============================================================================
-- tools.rs: destruction patterns and drop quantities
-- ============================================================================

/-- `tools.rs` (`get_destruction_pattern`): the shovel's pattern, factored
out because `ToolType::Hoe` delegates to `ToolType::Shovel`. -/
def shovelPattern : List IVec3 :=
  [⟨0, 0, 0⟩, ⟨1, 0, 0⟩, ⟨-1, 0, 0⟩, ⟨0, 0, 1⟩, ⟨0, 0, -1⟩, ⟨0, -1, 0⟩]

/-- `tools.rs`: `ToolType::get_destruction_pattern` — the fixed list of
local-coordinate offsets destroyed around the target, per tool. -/
def ToolType.get_destruction_pattern : ToolType → List IVec3
  | .None => [⟨0, 0, 0⟩]
  | .Shovel => shovelPattern
  | .Pickaxe =>
    [⟨0, 0, 0⟩, ⟨1, 0, 0⟩, ⟨-1, 0, 0⟩, ⟨0, 1, 0⟩, ⟨0, -1, 0⟩,
     ⟨0, 0, 1⟩, ⟨0, 0, -1⟩]
  | .Axe =>
    [⟨0, 0, 0⟩, ⟨0, 1, 0⟩, ⟨0, -1, 0⟩, ⟨1, 0, 0⟩, ⟨-1, 0, 0⟩,
     ⟨0, 2, 0⟩, ⟨0, -2, 0⟩, ⟨1, 1, 0⟩, ⟨-1, 1, 0⟩, ⟨1, -1, 0⟩, ⟨-1, -1, 0⟩]
  | .Hoe => shovelPattern

/-- `tools.rs` (`calculate_drops`): the shovel's quantity rows, factored out
because `ToolType::Hoe` delegates to `ToolType::Shovel.calculate_drops`. -/
def shovelDropsRange : VoxelType → ℕ × ℕ
  | .Air => (0, 0)
  | .Dirt | .Grass | .Sand => (8, 15)
  | .Stone => (2, 4)
  | .Wood => (3, 5)
  | .Metal => (0, 1)

/-- `tools.rs` (`calculate_drops`): the `(min, max)` row of the tool/material
quantity table selected by the `match`. -/
def calcDropsRange : ToolType → VoxelType → ℕ × ℕ
  | _, .Air => (0, 0)
  | .None, .Stone => (0, 1)
  | .None, .Metal => (0, 0)
  | .None, .Dirt | .None, .Grass | .None, .Sand => (2, 3)
  | .None, .Wood => (1, 2)
  | .Shovel, v => shovelDropsRange v
  | .Pickaxe, .Stone => (8, 15)
  | .Pickaxe, .Metal => (3, 8)
  | .Pickaxe, .Dirt | .Pickaxe, .Grass | .Pickaxe, .Sand => (5, 8)
  | .Pickaxe, .Wood => (4, 6)
  | .Axe, .Wood => (10, 30)
  | .Axe, .Dirt | .Axe, .Grass | .Axe, .Sand => (6, 10)
  | .Axe, .Stone => (3, 6)
  | .Axe, .Metal => (1, 3)
  | .Hoe, v => shovelDropsRange v

/-- `tools.rs`: `ToolType::calculate_drops` — `if min >= max { min } else
{ rng.gen_range(min..=max) }`.  The thread RNG is modelled by the oracle
`rng`, indexed by the call counter `i`. -/
def calculate_drops (rng : ℕ → ℕ → ℕ → ℕ) (i : ℕ) (t : ToolType)
    (v : VoxelType) : ℕ :=
  let r := calcDropsRange t v
  if r.2 ≤ r.1 then r.1 else rng i r.1 r.2

-- ============================================================================
-- destruction.rs: break resolution (update_voxel_breaking_system)
-- ============================================================================

/-- `chunk.rs`: the mutable per-chunk state touched by the break resolution:
the material grid, the density field (as functions of the local coordinate),
and the dirty flag. -/
structure ChunkM where
  voxel_types : IVec3 → VoxelType
  densities : IVec3 → ℚ
  dirty : Bool

/-- `chunk.rs`: `BaseChunk::set_voxel_type` — writes the material grid and
marks the chunk dirty; the density field is not touched. -/
def ChunkM.set_voxel_type (c : ChunkM) (p : IVec3) (vt : VoxelType) : ChunkM :=
  { c with
    voxel_types := fun q => if q = p then vt else c.voxel_types q
    dirty := true }

/-- `destruction.rs` (`update_voxel_breaking_system`): the bounds check
`0 <= target < BASE_CHUNK_SIZE` on each axis. -/
def inChunkBounds (p : IVec3) : Bool :=
  decide (0 ≤ p.x ∧ p.x < (BASE_CHUNK_SIZE : ℤ) ∧
    0 ≤ p.y ∧ p.y < (BASE_CHUNK_SIZE : ℤ) ∧
    0 ≤ p.z ∧ p.z < (BASE_CHUNK_SIZE : ℤ))

/-- A drop spawn recorded during break resolution (material, quantity and
the world position handed to `spawn_voxel_drop_with_ground_detection`). -/
structure DropEvent where
  voxel_type : VoxelType
  quantity : ℕ
  world_pos : Vec3Q

/-- `destruction.rs` (`update_voxel_breaking_system`): the world position at
which the drop for `target` is spawned:
`(chunk_pos * BASE_CHUNK_SIZE + target) as f32 * VOXEL_SIZE`. -/
def dropWorldPos (chunk_pos target : IVec3) : Vec3Q :=
  ⟨((chunk_pos.x * (BASE_CHUNK_SIZE : ℤ) + target.x : ℤ) : ℚ) * VOXEL_SIZE,
    ((chunk_pos.y * (BASE_CHUNK_SIZE : ℤ) + target.y : ℤ) : ℚ) * VOXEL_SIZE,
    ((chunk_pos.z * (BASE_CHUNK_SIZE : ℤ) + target.z : ℤ) : ℚ) * VOXEL_SIZE⟩

/-- `destruction.rs` (`update_voxel_breaking_system`): the loop over the
tool's destruction pattern, applied to the chunk at `breaking.chunk_pos`.
For each offset landing inside the chunk whose voxel is solid: the voxel is
set to `Air`, a drop quantity is computed via `calculate_drops`, and a drop
event is recorded when the quantity is nonzero.  `i` counts RNG calls. -/
def applyPattern (tool : ToolType) (rng : ℕ → ℕ → ℕ → ℕ)
    (chunk_pos local_pos : IVec3) :
    List IVec3 → ChunkM → ℕ → ChunkM × List DropEvent
  | [], c, _ => (c, [])
  | offset :: rest, c, i =>
    let target := local_pos + offset
    if inChunkBounds target then
      let vt := c.voxel_types target
      if vt.is_solid then
        let c' := c.set_voxel_type target .Air
        let drops := calculate_drops rng i tool vt
        let r := applyPattern tool rng chunk_pos local_pos rest c' (i + 1)
        (r.1,
          (if 0 < drops then [⟨vt, drops, dropWorldPos chunk_pos target⟩]
           else []) ++ r.2)
      else applyPattern tool rng chunk_pos local_pos rest c i
    else applyPattern tool rng chunk_pos local_pos rest c i

/-- `destruction.rs` (`update_voxel_breaking_system`): the break resolution
once `progress >= 1.0` — apply the equipped tool's destruction pattern to
the target chunk. -/
def resolve_break (tool : ToolType) (rng : ℕ → ℕ → ℕ → ℕ) (c : ChunkM)
    (chunk_pos local_pos : IVec3) : ChunkM × List DropEvent :=
  applyPattern tool rng chunk_pos local_pos tool.get_destruction_pattern c 0

-- ============================================================================
-- destruction.rs: raycast_voxel_3d (Amanatides–Woo DDA)
-- ============================================================================

/-- `f32` values extended with `f32::INFINITY`, as used by the raycast's
`t_max` / `t_delta` (`none` is `INFINITY`). -/
abbrev OptQ := Option ℚ

/-- `<` on `t` values: every finite value is below `INFINITY`, and
`INFINITY < INFINITY` is false — exactly the IEEE comparisons the source
performs. -/
def optLt : OptQ → OptQ → Bool
  | some a, some b => a < b
  | some _, none => true
  | none, _ => false

/-- Addition on `t` values (`t_max += t_delta`); anything plus `INFINITY`
is `INFINITY`. -/
def optAdd : OptQ → OptQ → OptQ
  | some a, some b => some (a + b)
  | _, _ => none

/-- `destruction.rs` (`raycast_voxel_3d`): the per-axis step direction —
`if dir > 0.0 { 1 } else { -1 }`. -/
def rayStep (dir : Vec3Q) : IVec3 :=
  ⟨if dir.x > 0 then 1 else -1,
   if dir.y > 0 then 1 else -1,
   if dir.z > 0 then 1 else -1⟩

/-- `destruction.rs` (`raycast_voxel_3d`): the starting voxel,
`floor(origin / VOXEL_SIZE)` per axis. -/
def initVoxel (origin : Vec3Q) : IVec3 :=
  ⟨⌊origin.x / VOXEL_SIZE⌋, ⌊origin.y / VOXEL_SIZE⌋, ⌊origin.z / VOXEL_SIZE⌋⟩

/-- `destruction.rs` (`raycast_voxel_3d`): initial `t_max` for one axis —
the ray parameter of the first axis-aligned boundary crossing, `INFINITY`
when the direction component is zero. -/
def initTMaxAxis (o d : ℚ) (v : ℤ) : OptQ :=
  if d ≠ 0 then
    let next_boundary :=
      if d > 0 then ((v + 1 : ℤ) : ℚ) * VOXEL_SIZE else (v : ℚ) * VOXEL_SIZE
    some ((next_boundary - o) / d)
  else none

/-- `destruction.rs` (`raycast_voxel_3d`): per-axis `t_delta`,
`VOXEL_SIZE / |dir|`, `INFINITY` when the direction component is zero. -/
def tDeltaAxis (d : ℚ) : OptQ :=
  if d ≠ 0 then some (VOXEL_SIZE / |d|) else none

/-- `destruction.rs` (`raycast_voxel_3d`): one DDA advance — step along the
axis with the smallest pending `t_max` (x wins only strict ties-free; on a
tie of `t_max.x` with another axis the source falls through to the y/z
branch, exactly as modelled). -/
def ddaAdvance (step : IVec3) (tDelta : OptQ × OptQ × OptQ)
    (voxel : IVec3) (tMax : OptQ × OptQ × OptQ) :
    IVec3 × (OptQ × OptQ × OptQ) :=
  if optLt tMax.1 tMax.2.1 ∧ optLt tMax.1 tMax.2.2 then
    (⟨voxel.x + step.x, voxel.y, voxel.z⟩,
      (optAdd tMax.1 tDelta.1, tMax.2.1, tMax.2.2))
  else if optLt tMax.2.1 tMax.2.2 then
    (⟨voxel.x, voxel.y + step.y, voxel.z⟩,
      (tMax.1, optAdd tMax.2.1 tDelta.2.1, tMax.2.2))
  else
    (⟨voxel.x, voxel.y, voxel.z + step.z⟩,
      (tMax.1, tMax.2.1, optAdd tMax.2.2 tDelta.2.2))

/-- The resident chunks of a `DynamicChunkSystem`
(`base_chunks.get(&chunk_pos)`), each carrying its `get_voxel_type`
accessor. -/
abbrev ChunkWorld := IVec3 → Option (IVec3 → VoxelType)

/-- `destruction.rs` (`raycast_voxel_3d`, loop body): test the current
voxel — resolve its chunk and local coordinate through `world_to_voxel_3d`
of the voxel centre, and report `(chunk_pos, local_pos, voxel_type)` when
the chunk is resident, the local coordinate is in bounds and the voxel is
solid. -/
def testVoxel (world : ChunkWorld) (voxel : IVec3) :
    Option (IVec3 × IVec3 × VoxelType) :=
  let w := world_to_voxel_3d
    ⟨(voxel.x : ℚ) * VOXEL_SIZE + VOXEL_SIZE * (1 / 2),
     (voxel.y : ℚ) * VOXEL_SIZE + VOXEL_SIZE * (1 / 2),
     (voxel.z : ℚ) * VOXEL_SIZE + VOXEL_SIZE * (1 / 2)⟩
  match world w.1 with
  | some chunk =>
    if inChunkBounds w.2.1 then
      let vt := chunk w.2.1
      if vt.is_solid then some (w.1, w.2.1, vt) else none
    else none
  | none => none

/-- `destruction.rs` (`raycast_voxel_3d`, loop tail): the early-exit test
`(voxel_pos * VOXEL_SIZE - origin).length() > max_distance`, stated exactly
through the squared length (`length > maxd ⟺ maxd < 0 ∨ length² > maxd²`). -/
def distExceeds (origin : Vec3Q) (max_distance : ℚ) (voxel : IVec3) : Bool :=
  let v : Vec3Q := ⟨(voxel.x : ℚ) * VOXEL_SIZE, (voxel.y : ℚ) * VOXEL_SIZE,
    (voxel.z : ℚ) * VOXEL_SIZE⟩
  if max_distance < 0 then true
  else (v - origin).normSq > max_distance * max_distance

/-- `destruction.rs` (`raycast_voxel_3d`): the bounded `for` loop, with the
iteration budget as fuel. -/
def raycastLoop (world : ChunkWorld) (origin : Vec3Q) (max_distance : ℚ)
    (step : IVec3) (tDelta : OptQ × OptQ × OptQ) :
    ℕ → IVec3 → OptQ × OptQ × OptQ → Option (IVec3 × IVec3 × VoxelType)
  | 0, _, _ => none
  | fuel + 1, voxel, tMax =>
    match testVoxel world voxel with
    | some hit => some hit
    | none =>
      let a := ddaAdvance step tDelta voxel tMax
      if distExceeds origin max_distance a.1 then none
      else raycastLoop world origin max_distance step tDelta fuel a.1 a.2

/-- The voxels tested by `raycastLoop`, in visit order (same recursion). -/
def raycastVisitedLoop (world : ChunkWorld) (origin : Vec3Q)
    (max_distance : ℚ) (step : IVec3) (tDelta : OptQ × OptQ × OptQ) :
    ℕ → IVec3 → OptQ × OptQ × OptQ → List IVec3
  | 0, _, _ => []
  | fuel + 1, voxel, tMax =>
    voxel ::
      (match testVoxel world voxel with
       | some _ => []
       | none =>
         let a := ddaAdvance step tDelta voxel tMax
         if distExceeds origin max_distance a.1 then []
         else raycastVisitedLoop world origin max_distance step tDelta fuel
           a.1 a.2)

/-- Truncation toward zero on `ℚ` (Rust's `as i32` on a float). -/
def truncQ (q : ℚ) : ℤ := if q < 0 then ⌈q⌉ else ⌊q⌋

/-- `destruction.rs` (`raycast_voxel_3d`): the iteration budget
`(max_distance / VOXEL_SIZE) as i32 + 1`. -/
def raycastMaxSteps (max_distance : ℚ) : ℕ :=
  (truncQ (max_distance / VOXEL_SIZE) + 1).toNat

/-- `destruction.rs`: `raycast_voxel_3d(origin, direction, max_distance,
chunk_system)`.  The source first normalizes `direction`; every branch of
the traversal (step signs, `t_max` comparisons, the distance cutoff and the
returned value) is invariant under positive rescaling of the direction, so
the model consumes the direction unnormalized and agrees exactly with the
source for every direction of positive length. -/
def raycast_voxel_3d (origin direction : Vec3Q) (max_distance : ℚ)
    (world : ChunkWorld) : Option (IVec3 × IVec3 × VoxelType) :=
  let voxel := initVoxel origin
  let step := rayStep direction
  let tMax := (initTMaxAxis origin.x direction.x voxel.x,
    initTMaxAxis origin.y direction.y voxel.y,
    initTMaxAxis origin.z direction.z voxel.z)
  let tDelta := (tDeltaAxis direction.x, tDeltaAxis direction.y,
    tDeltaAxis direction.z)
  raycastLoop world origin max_distance step tDelta
    (raycastMaxSteps max_distance) voxel tMax

/-- The voxels `raycast_voxel_3d` tests, in visit order. -/
def raycastVisited (origin direction : Vec3Q) (max_distance : ℚ)
    (world : ChunkWorld) : List IVec3 :=
  let voxel := initVoxel origin
  let step := rayStep direction
  let tMax := (initTMaxAxis origin.x direction.x voxel.x,
    initTMaxAxis origin.y direction.y voxel.y,
    initTMaxAxis origin.z direction.z voxel.z)
  let tDelta := (tDeltaAxis direction.x, tDeltaAxis direction.y,
    tDeltaAxis direction.z)
  raycastVisitedLoop world origin max_distance step tDelta
    (raycastMaxSteps max_distance) voxel tMax

/-- The voxel containing a world-space point, `floor(p / VOXEL_SIZE)` per
axis (the third component of `world_to_voxel_3d`). -/
def voxelOf (p : Vec3Q) : IVec3 := (world_to_voxel_3d p).2.2

/-- Progress measure of the DDA traversal: the inner product of the voxel
with the (±1) step signs; each advance increases it by exactly one. -/
def stepMeasure (step v : IVec3) : ℤ :=
  step.x * v.x + step.y * v.y + step.z * v.z

-- ============================================================================
-- meshing.rs: generate_simple_mesh
-- ============================================================================

/-- `meshing.rs`: the `Face` enum. -/
inductive Face where
  | Bottom
  | Top
  | Left
  | Right
  | Front
  | Back

/-- The triangle-mesh buffers emitted by the extractor: positions,
per-vertex normals, and a triangle index list. -/
structure MeshM where
  positions : List (ℚ × ℚ × ℚ)
  normals : List (ℚ × ℚ × ℚ)
  indices : List ℕ

/-- The empty mesh. -/
def MeshM.empty : MeshM := ⟨[], [], []⟩

/-- Modelled from the spec: the columnar `Chunk` struct consumed by
`meshing.rs` (its definition, together with the legacy `WORLD_HEIGHT`
constant, is absent from `src/`; only this consumer remains).  Per §3/§4.2 it
carries a chunk-local grid of signed density scalars indexed
`x < CHUNK_SIZE`, `y < WORLD_HEIGHT`, `z < CHUNK_SIZE`, and an integer 2D
chunk coordinate whose second component is the world-z axis.  The grid height
`WORLD_HEIGHT` is kept as a parameter `H`. -/
structure ColumnarChunk where
  densities : ℕ → ℕ → ℕ → ℚ
  position : ℤ × ℤ

/-- `meshing.rs`: `add_face` — appends the 4 corner positions of one cube
face, 4 copies of its axis normal, and the 6 indices of its two triangles
(`idx = positions.len()` before the append). -/
def add_face (m : MeshM) (base : Vec3Q) (face : Face) : MeshM :=
  let s := VOXEL_SIZE
  let idx := m.positions.length
  let verts : List (ℚ × ℚ × ℚ) :=
    match face with
    | .Top =>
      [(base.x, base.y + s, base.z), (base.x + s, base.y + s, base.z),
       (base.x + s, base.y + s, base.z + s), (base.x, base.y + s, base.z + s)]
    | .Bottom =>
      [(base.x, base.y, base.z + s), (base.x + s, base.y, base.z + s),
       (base.x + s, base.y, base.z), (base.x, base.y, base.z)]
    | .Right =>
      [(base.x + s, base.y, base.z), (base.x + s, base.y + s, base.z),
       (base.x + s, base.y + s, base.z + s), (base.x + s, base.y, base.z + s)]
    | .Left =>
      [(base.x, base.y, base.z + s), (base.x, base.y + s, base.z + s),
       (base.x, base.y + s, base.z), (base.x, base.y, base.z)]
    | .Front =>
      [(base.x + s, base.y, base.z + s), (base.x + s, base.y + s, base.z + s),
       (base.x, base.y + s, base.z + s), (base.x, base.y, base.z + s)]
    | .Back =>
      [(base.x, base.y, base.z), (base.x, base.y + s, base.z),
       (base.x + s, base.y + s, base.z), (base.x + s, base.y, base.z)]
  let normal : ℚ × ℚ × ℚ :=
    match face with
    | .Top => (0, 1, 0)
    | .Bottom => (0, -1, 0)
    | .Right => (1, 0, 0)
    | .Left => (-1, 0, 0)
    | .Front => (0, 0, 1)
    | .Back => (0, 0, -1)
  { positions := m.positions ++ verts
    normals := m.normals ++ [normal, normal, normal, normal]
    indices := m.indices ++ [idx, idx + 1, idx + 2, idx, idx + 2, idx + 3] }

/-- `meshing.rs` (`generate_simple_mesh`): the body of the triple loop for
one cell — skip a non-positive density, otherwise emit each of the 6 faces
whose same-chunk neighbour (or the grid border) is non-solid. -/
def processCell (H : ℕ) (chunk : ColumnarChunk) (m : MeshM)
    (x y z : ℕ) : MeshM :=
  if chunk.densities x y z ≤ 0 then m
  else
    let base : Vec3Q :=
      ⟨((chunk.position.1 * (BASE_CHUNK_SIZE : ℤ) : ℤ) + (x : ℤ)) * VOXEL_SIZE,
        (y : ℚ) * VOXEL_SIZE,
        ((chunk.position.2 * (BASE_CHUNK_SIZE : ℤ) : ℤ) + (z : ℤ)) * VOXEL_SIZE⟩
    let m := if y = H - 1 ∨ chunk.densities x (y + 1) z ≤ 0 then
      add_face m base .Top else m
    let m := if y = 0 ∨ chunk.densities x (y - 1) z ≤ 0 then
      add_face m base .Bottom else m
    let m := if x = BASE_CHUNK_SIZE - 1 ∨ chunk.densities (x + 1) y z ≤ 0 then
      add_face m base .Right else m
    let m := if x = 0 ∨ chunk.densities (x - 1) y z ≤ 0 then
      add_face m base .Left else m
    let m := if z = BASE_CHUNK_SIZE - 1 ∨ chunk.densities x y (z + 1) ≤ 0 then
      add_face m base .Front else m
    let m := if z = 0 ∨ chunk.densities x y (z - 1) ≤ 0 then
      add_face m base .Back else m
    m

/-- The cell visit order of the triple loop (`x` outer, `y`, `z` inner). -/
def meshCells (H : ℕ) : List (ℕ × ℕ × ℕ) :=
  (List.range BASE_CHUNK_SIZE).flatMap fun x =>
    (List.range H).flatMap fun y =>
      (List.range BASE_CHUNK_SIZE).map fun z => (x, y, z)

/-- `meshing.rs`: `generate_simple_mesh(chunk)` with the legacy grid height
as the parameter `H` (see `ColumnarChunk`). -/
def generate_simple_mesh (H : ℕ) (chunk : ColumnarChunk) : MeshM :=
  (meshCells H).foldl (fun m c => processCell H chunk m c.1 c.2.1 c.2.2)
    MeshM.empty

-- ============================================================================
-- destruction.rs: start_voxel_breaking_system
-- ============================================================================

/-- `destruction.rs`: the `VoxelBreaking` component (break progress). -/
structure VoxelBreaking where
  chunk_pos : IVec3
  local_pos : IVec3
  progress : ℚ
  break_time : ℚ
  deriving DecidableEq, Repr

/-- `destruction.rs` (`start_voxel_breaking_system`): the scan over the
existing `VoxelBreaking` entities — despawn every entity until one matching
the ray target is found, then stop (the `break` in the source loop); returns
the surviving entities and whether a match was found. -/
def scanBreaking (cp lp : IVec3) :
    List VoxelBreaking → List VoxelBreaking × Bool
  | [] => ([], false)
  | b :: bs =>
    if b.chunk_pos = cp ∧ b.local_pos = lp then (b :: bs, true)
    else scanBreaking cp lp bs

/-- `destruction.rs`: `start_voxel_breaking_system` as a transformer of the
set of `VoxelBreaking` entities.  Inputs: whether the break button is held,
the raycast result, and the equipped tool.  Releasing the button or missing
despawns everything; otherwise non-matching entities are despawned and a new
`VoxelBreaking` with `progress = 0` is spawned when no entity matched. -/
def start_voxel_breaking (pressed : Bool)
    (hit : Option (IVec3 × IVec3 × VoxelType)) (tool : ToolType)
    (existing : List VoxelBreaking) : List VoxelBreaking :=
  if !pressed then []
  else
    match hit with
    | none => []
    | some (cp, lp, vt) =>
      let s := scanBreaking cp lp existing
      if s.2 then s.1
      else s.1 ++ [⟨cp, lp, 0, calculate_break_time vt tool⟩]

end BevyGame

namespace BevyGame

-- ============================================================================
-- C1 / C7 theorems
-- ============================================================================

/-- C1: for every voxel material and tool, `calculate_break_time` equals
`base_time (1.0) * hardness / (effectiveness * speed)`, except that a zero
effectiveness or zero speed yields the sentinel `999.0`; in particular
`calculate_break_time(Stone, Pickaxe) = 1 * 5 / (1.5 * 1) = 10/3 ≈ 3.33 s`. -/
theorem break_time_formula :
    (∀ (m : VoxelType) (t : ToolType),
      calculate_break_time m t =
        if t.effectiveness_against m = 0 ∨ t.properties.speed_multiplier = 0
        then 999
        else 1 * m.properties.hardness /
          (t.effectiveness_against m * t.properties.speed_multiplier)) ∧
    calculate_break_time .Stone .Pickaxe = 1 * 5 / (3 / 2 * 1) ∧
    calculate_break_time .Stone .Pickaxe = 10 / 3 := by
  refine ⟨fun m t => rfl, ?_, ?_⟩ <;>
    norm_num [calculate_break_time, VoxelType.properties, ToolType.properties,
      ToolType.effectiveness_against]

/-- C7: `ChunkLOD.from_distance` maps `[0,50)` to `Ultra`, `[50,100)` to
`High`, `[100,200)` to `Medium`, `[200,400)` to `Low` and `[400,∞)` to
`Minimal`; in particular 25→Ultra, 75→High, 150→Medium, 300→Low,
500→Minimal. -/
theorem lod_classify_thresholds (d : ℚ) (hd : 0 ≤ d) :
    (d < 50 → ChunkLOD.from_distance d = .Ultra) ∧
    (50 ≤ d → d < 100 → ChunkLOD.from_distance d = .High) ∧
    (100 ≤ d → d < 200 → ChunkLOD.from_distance d = .Medium) ∧
    (200 ≤ d → d < 400 → ChunkLOD.from_distance d = .Low) ∧
    (400 ≤ d → ChunkLOD.from_distance d = .Minimal) ∧
    ChunkLOD.from_distance 25 = .Ultra ∧
    ChunkLOD.from_distance 75 = .High ∧
    ChunkLOD.from_distance 150 = .Medium ∧
    ChunkLOD.from_distance 300 = .Low ∧
    ChunkLOD.from_distance 500 = .Minimal := by
  unfold ChunkLOD.from_distance LOD_DISTANCES
  refine ⟨fun h => ?_, fun h1 h2 => ?_, fun h1 h2 => ?_, fun h1 h2 => ?_,
    fun h => ?_, by norm_num, by norm_num, by norm_num, by norm_num, by norm_num⟩
  all_goals simp only []
  · rw [if_pos (by norm_num at h ⊢; exact h)]
  · rw [if_neg (by norm_num; linarith), if_pos (by norm_num; linarith)]
  · rw [if_neg (by norm_num; linarith), if_neg (by norm_num; linarith),
      if_pos (by norm_num; linarith)]
  · rw [if_neg (by norm_num; linarith), if_neg (by norm_num; linarith),
      if_neg (by norm_num; linarith), if_pos (by norm_num; linarith)]
  · rw [if_neg (by norm_num; linarith), if_neg (by norm_num; linarith),
      if_neg (by norm_num; linarith), if_neg (by norm_num; linarith)]

/-- C7 witness: the theorem applied at the concrete distance 25. -/
theorem lod_classify_thresholds_witness :
    ChunkLOD.from_distance 25 = .Ultra :=
  (lod_classify_thresholds 25 (by norm_num)).1 (by norm_num)

/-- C10: `world_to_voxel_3d` returns `(chunk_pos, local_pos, voxel_pos)` with
`voxel_pos` the componentwise floor of `world_pos / VOXEL_SIZE`, every
component of `local_pos` in `[0, 32)`, and componentwise
`chunk_pos * 32 + local_pos = voxel_pos` (Euclidean div/mod decomposition,
valid for negative coordinates as well). -/
theorem world_to_voxel_decomposition (p : Vec3Q) :
    (world_to_voxel_3d p).2.2 =
      ⟨⌊p.x / VOXEL_SIZE⌋, ⌊p.y / VOXEL_SIZE⌋, ⌊p.z / VOXEL_SIZE⌋⟩ ∧
    (0 ≤ (world_to_voxel_3d p).2.1.x ∧ (world_to_voxel_3d p).2.1.x < 32) ∧
    (0 ≤ (world_to_voxel_3d p).2.1.y ∧ (world_to_voxel_3d p).2.1.y < 32) ∧
    (0 ≤ (world_to_voxel_3d p).2.1.z ∧ (world_to_voxel_3d p).2.1.z < 32) ∧
    (world_to_voxel_3d p).1.x * 32 + (world_to_voxel_3d p).2.1.x =
      (world_to_voxel_3d p).2.2.x ∧
    (world_to_voxel_3d p).1.y * 32 + (world_to_voxel_3d p).2.1.y =
      (world_to_voxel_3d p).2.2.y ∧
    (world_to_voxel_3d p).1.z * 32 + (world_to_voxel_3d p).2.1.z =
      (world_to_voxel_3d p).2.2.z := by
  unfold world_to_voxel_3d BASE_CHUNK_SIZE
  refine ⟨rfl, ⟨?_, ?_⟩, ⟨?_, ?_⟩, ⟨?_, ?_⟩, ?_, ?_, ?_⟩ <;> simp only [] <;>
    first
      | exact Int.emod_nonneg _ (by norm_num)
      | exact Int.emod_lt_of_pos _ (by norm_num)
      | omega

/-- C5: chunk generation is deterministic — two chunks generated for the same
chunk coordinate with the same noise function (fixed seed) have identical
density fields and identical material grids.  This holds because
`BaseChunkGen.new` is a pure function of `(noise, position)`. -/
theorem chunk_generation_deterministic (noise : ℚ → ℚ → ℚ) (position : IVec3)
    (c₁ c₂ : BaseChunkGen)
    (h₁ : c₁ = BaseChunkGen.new noise position)
    (h₂ : c₂ = BaseChunkGen.new noise position) :
    c₁.densities = c₂.densities ∧ c₁.voxel_types = c₂.voxel_types := by
  subst h₁; subst h₂; exact ⟨rfl, rfl⟩

/-- C5 witness: the theorem at a concrete noise function and coordinate. -/
theorem chunk_generation_deterministic_witness :
    (BaseChunkGen.new (fun _ _ => 0) ⟨1, 2, 3⟩).densities =
      (BaseChunkGen.new (fun _ _ => 0) ⟨1, 2, 3⟩).densities :=
  (chunk_generation_deterministic (fun _ _ => 0) ⟨1, 2, 3⟩ _ _ rfl rfl).1

/-- The world coordinate of border index 32 in a chunk equals the world
coordinate of index 0 in the successor chunk along the same axis. -/
theorem worldCoord_succ_border (c : ℤ) :
    worldCoord (c + 1) 0 = worldCoord c 32 := by
  unfold worldCoord BASE_CHUNK_SIZE
  push_cast
  ring

/-- C6: border continuity — for chunks generated independently with the same
noise function at coordinates differing by exactly one along a single axis,
the densities stored at the shared border positions are equal (exactly, in the
rational model), because generation evaluates the noise at world
coordinates. -/
theorem chunk_border_continuity (noise : ℚ → ℚ → ℚ) (p : IVec3)
    (i j : Fin (BASE_CHUNK_SIZE + 1)) :
    (BaseChunkGen.new noise p).densities ⟨32, by norm_num [BASE_CHUNK_SIZE]⟩ i j =
      (BaseChunkGen.new noise ⟨p.x + 1, p.y, p.z⟩).densities ⟨0, by norm_num [BASE_CHUNK_SIZE]⟩ i j ∧
    (BaseChunkGen.new noise p).densities i ⟨32, by norm_num [BASE_CHUNK_SIZE]⟩ j =
      (BaseChunkGen.new noise ⟨p.x, p.y + 1, p.z⟩).densities i ⟨0, by norm_num [BASE_CHUNK_SIZE]⟩ j ∧
    (BaseChunkGen.new noise p).densities i j ⟨32, by norm_num [BASE_CHUNK_SIZE]⟩ =
      (BaseChunkGen.new noise ⟨p.x, p.y, p.z + 1⟩).densities i j ⟨0, by norm_num [BASE_CHUNK_SIZE]⟩ := by
  unfold BaseChunkGen.new genDensity
  refine ⟨?_, ?_, ?_⟩ <;> simp only [] <;>
    rw [worldCoord_succ_border]

/-- `updateCanCollect` never changes the spawn time, and leaves
`can_collect = false` as long as the drop is younger than one second. -/
theorem updateCanCollect_young (times : List ℚ) (t : ℚ) (d : VoxelDropM)
    (hspawn : d.spawn_time = t) (hcc : d.can_collect = false)
    (h : ∀ u ∈ times, u < t + 1) :
    (times.foldl (fun d u => updateCanCollect u d) d).spawn_time = t ∧
    (times.foldl (fun d u => updateCanCollect u d) d).can_collect = false := by
  induction times generalizing d with
  | nil => exact ⟨hspawn, hcc⟩
  | cons u us ih =>
    have hu : u < t + 1 := h u (by simp)
    have hstep : updateCanCollect u d = d := by
      unfold updateCanCollect
      rw [if_neg (by rw [hspawn]; linarith)]
    simp only [List.foldl_cons, hstep]
    exact ih d hspawn hcc fun v hv => h v (by simp [hv])

/-- C8: a drop created at time `t` is not collectible at any time before
`t + 1` (across any sequence of update ticks at such times), and
`clean_old_drops_system` removes it exactly when its age exceeds 60 seconds,
reading neither the collectible flag nor any player distance. -/
theorem drop_lifecycle (vt : VoxelType) (q : ℕ) (t : ℚ) (vel : Vec3Q)
    (times : List ℚ) (now : ℚ) (h_young : ∀ u ∈ times, u < t + 1) :
    (times.foldl (fun d u => updateCanCollect u d)
        (VoxelDropM.new vt q t vel)).can_collect = false ∧
    (∀ d : VoxelDropM, d.spawn_time = t →
      (d.should_despawn now = true ↔ now > t + 60)) ∧
    (∀ d : VoxelDropM, d.spawn_time = t → now > t + 60 →
      clean_old_drops now [d] = []) := by
  refine ⟨(updateCanCollect_young times t _ rfl rfl h_young).2,
    fun d hd => ?_, fun d hd hnow => ?_⟩
  · unfold VoxelDropM.should_despawn
    rw [hd]
    constructor
    · intro h; have := of_decide_eq_true h; linarith
    · intro h; exact decide_eq_true (by linarith)
  · unfold clean_old_drops
    have : d.should_despawn now = true := by
      unfold VoxelDropM.should_despawn
      rw [hd]; exact decide_eq_true (by linarith)
    simp [this]

/-- C8 witness: the theorem at a drop spawned at `t = 0`, updated at times
`0.5` and `0.9`, inspected at `now = 100`. -/
theorem drop_lifecycle_witness :
    ([(1 : ℚ) / 2, 9 / 10].foldl (fun d u => updateCanCollect u d)
        (VoxelDropM.new .Stone 3 0 ⟨0, 0, 0⟩)).can_collect = false :=
  (drop_lifecycle .Stone 3 0 ⟨0, 0, 0⟩ [1 / 2, 9 / 10] 100
    (by intro u hu; fin_cases hu <;> norm_num)).1

/-- C4: the single-target invariant is preserved by
`start_voxel_breaking_system`: from a state with at most one `VoxelBreaking`
entity, at most one exists after the system runs; moreover, when the single
existing entity tracks a voxel different from the new ray target, it is
discarded and exactly the fresh `VoxelBreaking` for the new target remains. -/
theorem single_target_invariant (pressed : Bool)
    (hit : Option (IVec3 × IVec3 × VoxelType)) (tool : ToolType)
    (existing : List VoxelBreaking) (h : existing.length ≤ 1) :
    (start_voxel_breaking pressed hit tool existing).length ≤ 1 ∧
    (∀ b cp lp vt, existing = [b] → pressed = true → hit = some (cp, lp, vt) →
      ¬(b.chunk_pos = cp ∧ b.local_pos = lp) →
      start_voxel_breaking pressed hit tool existing =
        [⟨cp, lp, 0, calculate_break_time vt tool⟩]) := by
  constructor
  · match existing, h with
    | [], _ =>
      cases pressed <;> cases hit <;>
        simp [start_voxel_breaking, scanBreaking]
    | [b], _ =>
      cases pressed with
      | false => simp [start_voxel_breaking]
      | true =>
        cases hit with
        | none => simp [start_voxel_breaking]
        | some target =>
          obtain ⟨cp, lp, vt⟩ := target
          by_cases hm : b.chunk_pos = cp ∧ b.local_pos = lp <;>
            simp [start_voxel_breaking, scanBreaking, hm]
    | _ :: _ :: _, h => simp at h
  · rintro b cp lp vt rfl rfl rfl hm
    simp [start_voxel_breaking, scanBreaking, hm]

/-- Break resolution never touches the density field. -/
theorem applyPattern_densities (tool : ToolType) (rng : ℕ → ℕ → ℕ → ℕ)
    (cp lp : IVec3) (offs : List IVec3) :
    ∀ (c : ChunkM) (i : ℕ),
      (applyPattern tool rng cp lp offs c i).1.densities = c.densities := by
  induction offs with
  | nil => intro c i; rfl
  | cons o os ih =>
    intro c i
    simp only [applyPattern]
    by_cases hb : inChunkBounds (lp + o) = true
    · rw [if_pos hb]
      by_cases hs : (c.voxel_types (lp + o)).is_solid = true
      · rw [if_pos hs]
        simp only []
        rw [ih]
        rfl
      · rw [if_neg hs]
        exact ih c i
    · rw [if_neg hb]
      exact ih c i

/-- Break resolution only ever writes `Air`: an already-empty voxel stays
empty. -/
theorem applyPattern_air_stable (tool : ToolType) (rng : ℕ → ℕ → ℕ → ℕ)
    (cp lp : IVec3) (offs : List IVec3) :
    ∀ (c : ChunkM) (i : ℕ) (t : IVec3), c.voxel_types t = .Air →
      (applyPattern tool rng cp lp offs c i).1.voxel_types t = .Air := by
  induction offs with
  | nil => intro c i t h; exact h
  | cons o os ih =>
    intro c i t h
    simp only [applyPattern]
    by_cases hb : inChunkBounds (lp + o) = true
    · rw [if_pos hb]
      by_cases hs : (c.voxel_types (lp + o)).is_solid = true
      · rw [if_pos hs]
        simp only []
        refine ih _ _ t ?_
        unfold ChunkM.set_voxel_type
        simp only []
        split <;> simp [h]
      · rw [if_neg hs]
        exact ih c i t h
    · rw [if_neg hb]
      exact ih c i t h

/-- Every in-bounds, initially-solid target of the pattern ends as `Air`. -/
theorem applyPattern_destroys (tool : ToolType) (rng : ℕ → ℕ → ℕ → ℕ)
    (cp lp : IVec3) (offs : List IVec3) :
    ∀ (c : ChunkM) (i : ℕ) (o : IVec3), o ∈ offs →
      inChunkBounds (lp + o) = true →
      (c.voxel_types (lp + o)).is_solid = true →
      (applyPattern tool rng cp lp offs c i).1.voxel_types (lp + o) = .Air := by
  induction offs with
  | nil => intro c i o h; simp at h
  | cons o' os ih =>
    intro c i o hmem hb hs
    rcases List.mem_cons.mp hmem with rfl | hos
    · simp only [applyPattern]
      rw [if_pos hb, if_pos hs]
      simp only []
      refine applyPattern_air_stable tool rng cp lp os _ _ _ ?_
      unfold ChunkM.set_voxel_type
      simp
    · simp only [applyPattern]
      by_cases hb' : inChunkBounds (lp + o') = true
      · rw [if_pos hb']
        by_cases hs' : (c.voxel_types (lp + o')).is_solid = true
        · rw [if_pos hs']
          simp only []
          by_cases he : lp + o = lp + o'
          · refine applyPattern_air_stable tool rng cp lp os _ _ _ ?_
            unfold ChunkM.set_voxel_type
            simp [he]
          · refine ih _ _ o hos hb ?_
            unfold ChunkM.set_voxel_type
            simp only []
            rw [if_neg he]
            exact hs
        · rw [if_neg hs']
          exact ih c i o hos hb hs
      · rw [if_neg hb']
        exact ih c i o hos hb hs

/-- Every row of the drop-quantity table has `min ≤ max`. -/
theorem calcDropsRange_le (t : ToolType) (v : VoxelType) :
    (calcDropsRange t v).1 ≤ (calcDropsRange t v).2 := by
  cases t <;> cases v <;> decide

/-- For a range-respecting RNG oracle, `calculate_drops` stays inside the
table row of the tool/material pair. -/
theorem calculate_drops_mem_range (rng : ℕ → ℕ → ℕ → ℕ)
    (hrng : ∀ i a b, a ≤ b → a ≤ rng i a b ∧ rng i a b ≤ b)
    (i : ℕ) (t : ToolType) (v : VoxelType) :
    (calcDropsRange t v).1 ≤ calculate_drops rng i t v ∧
    calculate_drops rng i t v ≤ (calcDropsRange t v).2 := by
  unfold calculate_drops
  simp only []
  by_cases h : (calcDropsRange t v).2 ≤ (calcDropsRange t v).1
  · rw [if_pos h]
    exact ⟨le_refl _, calcDropsRange_le t v⟩
  · rw [if_neg h]
    exact hrng i _ _ (le_of_not_le h)

/-- Every drop event recorded by the pattern loop has a positive quantity
inside the table row of its material, and sits at the world position of an
in-bounds pattern target. -/
theorem applyPattern_events (tool : ToolType) (rng : ℕ → ℕ → ℕ → ℕ)
    (hrng : ∀ i a b, a ≤ b → a ≤ rng i a b ∧ rng i a b ≤ b)
    (cp lp : IVec3) (offs : List IVec3) :
    ∀ (c : ChunkM) (i : ℕ),
      ∀ e ∈ (applyPattern tool rng cp lp offs c i).2,
        0 < e.quantity ∧
        (calcDropsRange tool e.voxel_type).1 ≤ e.quantity ∧
        e.quantity ≤ (calcDropsRange tool e.voxel_type).2 ∧
        ∃ o ∈ offs, inChunkBounds (lp + o) = true ∧
          e.world_pos = dropWorldPos cp (lp + o) := by
  induction offs with
  | nil => intro c i e h; simp [applyPattern] at h
  | cons o' os ih =>
    intro c i e he
    simp only [applyPattern] at he
    by_cases hb' : inChunkBounds (lp + o') = true
    · rw [if_pos hb'] at he
      by_cases hs' : (c.voxel_types (lp + o')).is_solid = true
      · rw [if_pos hs'] at he
        simp only [List.mem_append] at he
        rcases he with he | he
        · by_cases hq : 0 < calculate_drops rng i tool (c.voxel_types (lp + o'))
          · rw [if_pos hq] at he
            simp only [List.mem_singleton] at he
            subst he
            exact ⟨hq, (calculate_drops_mem_range rng hrng i tool _).1,
              (calculate_drops_mem_range rng hrng i tool _).2,
              o', by simp, hb', rfl⟩
          · rw [if_neg hq] at he
            simp at he
        · obtain ⟨h1, h2, h3, o, ho, h4, h5⟩ := ih _ _ e he
          exact ⟨h1, h2, h3, o, by simp [ho], h4, h5⟩
      · rw [if_neg hs'] at he
        obtain ⟨h1, h2, h3, o, ho, h4, h5⟩ := ih _ _ e he
        exact ⟨h1, h2, h3, o, by simp [ho], h4, h5⟩
    · rw [if_neg hb'] at he
      obtain ⟨h1, h2, h3, o, ho, h4, h5⟩ := ih _ _ e he
      exact ⟨h1, h2, h3, o, by simp [ho], h4, h5⟩

/-- Every in-bounds, initially-solid pattern target whose table row has a
positive minimum certainly produces a drop event at its world position. -/
theorem applyPattern_spawns (tool : ToolType) (rng : ℕ → ℕ → ℕ → ℕ)
    (hrng : ∀ i a b, a ≤ b → a ≤ rng i a b ∧ rng i a b ≤ b)
    (cp lp : IVec3) (offs : List IVec3) :
    ∀ (c : ChunkM) (i : ℕ) (o : IVec3), o ∈ offs →
      inChunkBounds (lp + o) = true →
      (c.voxel_types (lp + o)).is_solid = true →
      0 < (calcDropsRange tool (c.voxel_types (lp + o))).1 →
      ∃ e ∈ (applyPattern tool rng cp lp offs c i).2,
        e.voxel_type = c.voxel_types (lp + o) ∧
        e.world_pos = dropWorldPos cp (lp + o) := by
  induction offs with
  | nil => intro c i o h; simp at h
  | cons o' os ih =>
    intro c i o hmem hb hs hmin
    rcases List.mem_cons.mp hmem with rfl | hos
    · simp only [applyPattern]
      rw [if_pos hb, if_pos hs]
      simp only []
      have hq : 0 < calculate_drops rng i tool (c.voxel_types (lp + o)) :=
        lt_of_lt_of_le hmin (calculate_drops_mem_range rng hrng i tool _).1
      rw [if_pos hq]
      exact ⟨⟨c.voxel_types (lp + o),
        calculate_drops rng i tool (c.voxel_types (lp + o)),
        dropWorldPos cp (lp + o)⟩, by simp, rfl, rfl⟩
    · simp only [applyPattern]
      by_cases hb' : inChunkBounds (lp + o') = true
      · rw [if_pos hb']
        by_cases hs' : (c.voxel_types (lp + o')).is_solid = true
        · rw [if_pos hs']
          simp only []
          by_cases he : lp + o = lp + o'
          · have hq : 0 < calculate_drops rng i tool (c.voxel_types (lp + o')) := by
              rw [← he]
              exact lt_of_lt_of_le hmin
                (calculate_drops_mem_range rng hrng i tool _).1
            rw [if_pos hq]
            exact ⟨⟨c.voxel_types (lp + o'),
              calculate_drops rng i tool (c.voxel_types (lp + o')),
              dropWorldPos cp (lp + o')⟩, by simp, by rw [he], by rw [he]⟩
          · have hty : (c.set_voxel_type (lp + o') .Air).voxel_types (lp + o) =
                c.voxel_types (lp + o) := by
              unfold ChunkM.set_voxel_type
              simp only []
              rw [if_neg he]
            obtain ⟨e, hemem, h1, h2⟩ := ih _ (i + 1) o hos hb
              (by rw [hty]; exact hs) (by rw [hty]; exact hmin)
            exact ⟨e, by simp [hemem], by rw [h1, hty], h2⟩
        · rw [if_neg hs']
          exact ih c i o hos hb hs hmin
      · rw [if_neg hb']
        exact ih c i o hos hb hs hmin

/-- A fold of `processCell` over cells whose densities are all non-positive
leaves the mesh unchanged. -/
theorem processCell_fold_empty (H : ℕ) (chunk : ColumnarChunk)
    (cells : List (ℕ × ℕ × ℕ)) (m : MeshM)
    (h : ∀ c ∈ cells, chunk.densities c.1 c.2.1 c.2.2 ≤ 0) :
    cells.foldl (fun m c => processCell H chunk m c.1 c.2.1 c.2.2) m = m := by
  induction cells generalizing m with
  | nil => rfl
  | cons c cs ih =>
    have hc : chunk.densities c.1 c.2.1 c.2.2 ≤ 0 := h c (by simp)
    simp only [List.foldl_cons]
    rw [show processCell H chunk m c.1 c.2.1 c.2.2 = m by
      unfold processCell; rw [if_pos hc]]
    exact ih m fun d hd => h d (by simp [hd])

/-- C9: a uniformly empty chunk (all densities non-positive) produces a mesh
with zero vertices and zero indices, as a normal (non-error) result of
`generate_simple_mesh`. -/
theorem empty_chunk_empty_mesh (H : ℕ) (chunk : ColumnarChunk)
    (h : ∀ x y z, x < BASE_CHUNK_SIZE → y < H → z < BASE_CHUNK_SIZE →
      chunk.densities x y z ≤ 0) :
    (generate_simple_mesh H chunk).positions = [] ∧
    (generate_simple_mesh H chunk).normals = [] ∧
    (generate_simple_mesh H chunk).indices = [] := by
  have hmem : ∀ c ∈ meshCells H, chunk.densities c.1 c.2.1 c.2.2 ≤ 0 := by
    intro c hc
    unfold meshCells at hc
    simp only [List.mem_flatMap, List.mem_map, List.mem_range] at hc
    obtain ⟨x, hx, y, hy, z, hz, rfl⟩ := hc
    exact h x y z hx hy hz
  unfold generate_simple_mesh
  rw [processCell_fold_empty H chunk (meshCells H) MeshM.empty hmem]
  exact ⟨rfl, rfl, rfl⟩

/-- C9 witness: the theorem at height 1 and the constant density −1. -/
theorem empty_chunk_empty_mesh_witness :
    (generate_simple_mesh 1 ⟨fun _ _ _ => -1, (0, 0)⟩).positions = [] :=
  (empty_chunk_empty_mesh 1 ⟨fun _ _ _ => -1, (0, 0)⟩
    (by intro x y z _ _ _; norm_num)).1

/-- C4 witness: the theorem at a concrete state holding one `VoxelBreaking`
for a different voxel than the new target. -/
theorem single_target_invariant_witness :
    (start_voxel_breaking true (some (⟨0, 0, 0⟩, ⟨1, 2, 3⟩, .Stone)) .Pickaxe
        [⟨⟨0, 0, 0⟩, ⟨4, 5, 6⟩, 1 / 2, 10 / 3⟩]).length ≤ 1 :=
  (single_target_invariant true (some (⟨0, 0, 0⟩, ⟨1, 2, 3⟩, .Stone)) .Pickaxe
    [⟨⟨0, 0, 0⟩, ⟨4, 5, 6⟩, 1 / 2, 10 / 3⟩] (by simp)).1

/-- The raycast loop returns exactly the first voxel of its visit list on
which `testVoxel` reports a solid hit. -/
theorem raycastLoop_eq_findSome (world : ChunkWorld) (origin : Vec3Q)
    (maxd : ℚ) (step : IVec3) (tDelta : OptQ × OptQ × OptQ) :
    ∀ (fuel : ℕ) (voxel : IVec3) (tMax : OptQ × OptQ × OptQ),
      raycastLoop world origin maxd step tDelta fuel voxel tMax =
      (raycastVisitedLoop world origin maxd step tDelta fuel voxel
        tMax).findSome? (testVoxel world) := by
  intro fuel
  induction fuel with
  | zero => intro v t; rfl
  | succ n ih =>
    intro v t
    cases h : testVoxel world v with
    | some hit =>
      simp [raycastLoop, raycastVisitedLoop, h, List.findSome?_cons]
    | none =>
      simp only [raycastLoop, raycastVisitedLoop, h, List.findSome?_cons]
      by_cases hd :
          distExceeds origin maxd (ddaAdvance step tDelta v t).1 = true
      · simp [hd]
      · simp [hd, ih]

/-- The step signs produced by `rayStep` are `±1` on every axis. -/
theorem rayStep_units (dir : Vec3Q) :
    ((rayStep dir).x = 1 ∨ (rayStep dir).x = -1) ∧
    ((rayStep dir).y = 1 ∨ (rayStep dir).y = -1) ∧
    ((rayStep dir).z = 1 ∨ (rayStep dir).z = -1) := by
  unfold rayStep
  refine ⟨?_, ?_, ?_⟩ <;> simp only [] <;> split <;> simp

/-- Each DDA advance increases the traversal measure by exactly one. -/
theorem ddaAdvance_measure (step : IVec3) (tDelta : OptQ × OptQ × OptQ)
    (v : IVec3) (t : OptQ × OptQ × OptQ)
    (hx : step.x = 1 ∨ step.x = -1) (hy : step.y = 1 ∨ step.y = -1)
    (hz : step.z = 1 ∨ step.z = -1) :
    stepMeasure step (ddaAdvance step tDelta v t).1 =
      stepMeasure step v + 1 := by
  unfold ddaAdvance stepMeasure
  split
  · simp only []
    rcases hx with h | h <;> rw [h] <;> ring
  · split
    · simp only []
      rcases hy with h | h <;> rw [h] <;> ring
    · simp only []
      rcases hz with h | h <;> rw [h] <;> ring

/-- Every voxel in the visit list has measure at least that of the starting
voxel. -/
theorem visited_measure_lb (world : ChunkWorld) (origin : Vec3Q) (maxd : ℚ)
    (step : IVec3) (tDelta : OptQ × OptQ × OptQ)
    (hx : step.x = 1 ∨ step.x = -1) (hy : step.y = 1 ∨ step.y = -1)
    (hz : step.z = 1 ∨ step.z = -1) :
    ∀ (fuel : ℕ) (v : IVec3) (t : OptQ × OptQ × OptQ),
      ∀ w ∈ raycastVisitedLoop world origin maxd step tDelta fuel v t,
        stepMeasure step v ≤ stepMeasure step w := by
  intro fuel
  induction fuel with
  | zero => intro v t w hw; simp [raycastVisitedLoop] at hw
  | succ n ih =>
    intro v t w hw
    simp only [raycastVisitedLoop, List.mem_cons] at hw
    rcases hw with rfl | hw
    · exact le_refl _
    · cases h : testVoxel world v with
      | some hit => rw [h] at hw; simp at hw
      | none =>
        rw [h] at hw
        simp only [] at hw
        by_cases hd :
            distExceeds origin maxd (ddaAdvance step tDelta v t).1 = true
        · rw [if_pos hd] at hw; simp at hw
        · rw [if_neg hd] at hw
          have := ih (ddaAdvance step tDelta v t).1
            (ddaAdvance step tDelta v t).2 w hw
          rw [ddaAdvance_measure step tDelta v t hx hy hz] at this
          omega

/-- The visit list of the DDA traversal contains no duplicate voxel. -/
theorem visited_pairwise (world : ChunkWorld) (origin : Vec3Q) (maxd : ℚ)
    (step : IVec3) (tDelta : OptQ × OptQ × OptQ)
    (hx : step.x = 1 ∨ step.x = -1) (hy : step.y = 1 ∨ step.y = -1)
    (hz : step.z = 1 ∨ step.z = -1) :
    ∀ (fuel : ℕ) (v : IVec3) (t : OptQ × OptQ × OptQ),
      (raycastVisitedLoop world origin maxd step tDelta fuel v
        t).Pairwise (· ≠ ·) := by
  intro fuel
  induction fuel with
  | zero => intro v t; simp [raycastVisitedLoop]
  | succ n ih =>
    intro v t
    simp only [raycastVisitedLoop]
    refine List.Pairwise.cons ?_ ?_
    · intro w hw
      cases h : testVoxel world v with
      | some hit => rw [h] at hw; simp at hw
      | none =>
        rw [h] at hw
        simp only [] at hw
        by_cases hd :
            distExceeds origin maxd (ddaAdvance step tDelta v t).1 = true
        · rw [if_pos hd] at hw; simp at hw
        · rw [if_neg hd] at hw
          have hle := visited_measure_lb world origin maxd step tDelta hx hy
            hz n (ddaAdvance step tDelta v t).1
            (ddaAdvance step tDelta v t).2 w hw
          rw [ddaAdvance_measure step tDelta v t hx hy hz] at hle
          intro hvw
          rw [hvw] at hle
          omega
    · cases h : testVoxel world v with
      | some hit => simp
      | none =>
        dsimp only
        by_cases hd :
            distExceeds origin maxd (ddaAdvance step tDelta v t).1 = true
        · rw [if_pos hd]; simp
        · rw [if_neg hd]; exact ih _ _

/-- Inversion of a successful voxel test: the reported chunk is resident,
the local coordinate is in bounds, and the reported material is the chunk's
solid voxel there. -/
theorem testVoxel_inv (world : ChunkWorld) (v cp lp : IVec3)
    (vt : VoxelType) (h : testVoxel world v = some (cp, lp, vt)) :
    ∃ chunk, world cp = some chunk ∧ chunk lp = vt ∧
      vt.is_solid = true ∧ inChunkBounds lp = true := by
  simp only [testVoxel] at h
  set w := world_to_voxel_3d
    ⟨(v.x : ℚ) * VOXEL_SIZE + VOXEL_SIZE * (1 / 2),
     (v.y : ℚ) * VOXEL_SIZE + VOXEL_SIZE * (1 / 2),
     (v.z : ℚ) * VOXEL_SIZE + VOXEL_SIZE * (1 / 2)⟩ with hwdef
  cases hw : world w.1 with
  | none => rw [hw] at h; simp at h
  | some chunk =>
    rw [hw] at h
    dsimp only at h
    by_cases hb : inChunkBounds w.2.1 = true
    · rw [if_pos hb] at h
      by_cases hsld : (chunk w.2.1).is_solid = true
      · rw [if_pos hsld] at h
        simp only [Option.some.injEq, Prod.mk.injEq] at h
        obtain ⟨h1, h2, h3⟩ := h
        exact ⟨chunk, h1 ▸ hw, h2 ▸ h3, h3 ▸ hsld, h2 ▸ hb⟩
      · rw [if_neg hsld] at h; simp at h
    · rw [if_neg hb] at h; simp at h

/-- Unfolding lemma for `Vec3Q` addition. -/
theorem vec3q_add_unfold (a b : Vec3Q) :
    a + b = ⟨a.x + b.x, a.y + b.y, a.z + b.z⟩ := rfl

/-- Unfolding lemma for `IVec3` addition. -/
theorem ivec3_add_unfold (a b : IVec3) :
    a + b = ⟨a.x + b.x, a.y + b.y, a.z + b.z⟩ := rfl

/-- The voxel-centre sampling of the raycast floors back to the voxel
itself. -/
theorem floor_voxel_center (n : ℤ) :
    ⌊((n : ℚ) * VOXEL_SIZE + VOXEL_SIZE * (1 / 2)) / VOXEL_SIZE⌋ = n := by
  have h : ((n : ℚ) * VOXEL_SIZE + VOXEL_SIZE * (1 / 2)) / VOXEL_SIZE =
      (n : ℚ) + 1 / 2 := by
    rw [VOXEL_SIZE]
    field_simp
    ring
  rw [h, Int.floor_int_add]
  norm_num

/-- A successful voxel test identifies the tested voxel: the reported chunk
and local coordinates recompose to it. -/
theorem testVoxel_target (world : ChunkWorld) (v cp lp : IVec3)
    (vt : VoxelType) (h : testVoxel world v = some (cp, lp, vt)) :
    cp.x * 32 + lp.x = v.x ∧ cp.y * 32 + lp.y = v.y ∧
      cp.z * 32 + lp.z = v.z := by
  simp only [testVoxel, world_to_voxel_3d, floor_voxel_center,
    BASE_CHUNK_SIZE, Nat.cast_ofNat] at h
  cases hw : world ⟨v.x / 32, v.y / 32, v.z / 32⟩ with
  | none => rw [hw] at h; simp at h
  | some chunk =>
    rw [hw] at h
    dsimp only at h
    by_cases hb : inChunkBounds ⟨v.x % 32, v.y % 32, v.z % 32⟩ = true
    · rw [if_pos hb] at h
      by_cases hsld : (chunk ⟨v.x % 32, v.y % 32, v.z % 32⟩).is_solid = true
      · rw [if_pos hsld] at h
        simp only [Option.some.injEq, Prod.mk.injEq] at h
        obtain ⟨h1, h2, h3⟩ := h
        refine ⟨?_, ?_, ?_⟩ <;> rw [← h1, ← h2] <;> dsimp only <;> omega
      · rw [if_neg hsld] at h; simp at h
    · rw [if_neg hb] at h; simp at h

/-- Every voxel in the visit list has measure at most that of the starting
voxel plus the remaining fuel minus one. -/
theorem visited_measure_ub (world : ChunkWorld) (origin : Vec3Q) (maxd : ℚ)
    (step : IVec3) (tDelta : OptQ × OptQ × OptQ)
    (hx : step.x = 1 ∨ step.x = -1) (hy : step.y = 1 ∨ step.y = -1)
    (hz : step.z = 1 ∨ step.z = -1) :
    ∀ (fuel : ℕ) (v : IVec3) (t : OptQ × OptQ × OptQ),
      ∀ w ∈ raycastVisitedLoop world origin maxd step tDelta fuel v t,
        stepMeasure step w ≤ stepMeasure step v + (fuel : ℤ) - 1 := by
  intro fuel
  induction fuel with
  | zero => intro v t w hw; simp [raycastVisitedLoop] at hw
  | succ n ih =>
    intro v t w hw
    simp only [raycastVisitedLoop, List.mem_cons] at hw
    rcases hw with rfl | hw
    · omega
    · cases h : testVoxel world v with
      | some hit => rw [h] at hw; simp at hw
      | none =>
        rw [h] at hw
        simp only [] at hw
        by_cases hd :
            distExceeds origin maxd (ddaAdvance step tDelta v t).1 = true
        · rw [if_pos hd] at hw; simp at hw
        · rw [if_neg hd] at hw
          have := ih (ddaAdvance step tDelta v t).1
            (ddaAdvance step tDelta v t).2 w hw
          rw [ddaAdvance_measure step tDelta v t hx hy hz] at this
          omega

/-- C2 (amended): for every ray origin, direction and maximum distance, the
grid-traversal raycast tests a sequence of pairwise-distinct voxels in DDA
visit order and returns the first of them that is a resident, in-bounds,
solid voxel — with its chunk coordinate, local coordinate and material — or
no result when the budget ends without a hit.  The iteration budget is
`⌊max_distance / VOXEL_SIZE⌋ + 1` steps, so a ray with large diagonal
components can end its traversal before covering `max_distance` (see the
counterexample): geometric completeness up to `max_distance` does not
hold. -/
theorem raycast_first_solid (origin direction : Vec3Q) (max_distance : ℚ)
    (world : ChunkWorld) :
    raycast_voxel_3d origin direction max_distance world =
      (raycastVisited origin direction max_distance world).findSome?
        (testVoxel world) ∧
    (raycastVisited origin direction max_distance world).Pairwise (· ≠ ·) ∧
    (∀ cp lp vt,
      raycast_voxel_3d origin direction max_distance world =
        some (cp, lp, vt) →
      ∃ chunk, world cp = some chunk ∧ chunk lp = vt ∧
        vt.is_solid = true ∧ inChunkBounds lp = true) := by
  obtain ⟨hx, hy, hz⟩ := rayStep_units direction
  have h1 : raycast_voxel_3d origin direction max_distance world =
      (raycastVisited origin direction max_distance world).findSome?
        (testVoxel world) :=
    raycastLoop_eq_findSome _ _ _ _ _ _ _ _
  refine ⟨h1, ?_, ?_⟩
  · exact visited_pairwise world origin max_distance (rayStep direction) _
      hx hy hz _ _ _
  · intro cp lp vt hres
    rw [h1, List.findSome?_eq_some_iff] at hres
    obtain ⟨l₁, a, l₂, hl, ha, -⟩ := hres
    exact testVoxel_inv world a cp lp vt ha

/-- C2 counterexample to the claim as stated: with a single resident chunk
whose only solid voxel is `(7,7,3)`, the unit ray from `(0.05,0.05,0.05)`
in direction `(2/3,2/3,1/3)` passes through that voxel at distance
`49/50 ≤ max_distance = 1`, yet `raycast_voxel_3d` returns no result: its
step budget `⌊1/0.1⌋+1 = 11` is exhausted after 11 of the 18 voxels the ray
crosses, so the solid voxel is never visited. -/
theorem raycast_missed_solid_counterexample :
    raycast_voxel_3d ⟨1 / 20, 1 / 20, 1 / 20⟩ ⟨2 / 3, 2 / 3, 1 / 3⟩ 1
      (fun cp => if cp = ⟨0, 0, 0⟩ then
          some (fun lp =>
            if lp = ⟨7, 7, 3⟩ then VoxelType.Stone else VoxelType.Air)
        else none) = none ∧
    Vec3Q.normSq ⟨2 / 3, 2 / 3, 1 / 3⟩ = 1 ∧
    ((0 : ℚ) ≤ 49 / 50 ∧ (49 / 50 : ℚ) ≤ 1) ∧
    voxelOf (⟨1 / 20, 1 / 20, 1 / 20⟩ +
      Vec3Q.scale (49 / 50) ⟨2 / 3, 2 / 3, 1 / 3⟩) = ⟨7, 7, 3⟩ ∧
    testVoxel
      (fun cp => if cp = ⟨0, 0, 0⟩ then
          some (fun lp =>
            if lp = ⟨7, 7, 3⟩ then VoxelType.Stone else VoxelType.Air)
        else none) ⟨7, 7, 3⟩ =
      some (⟨0, 0, 0⟩, ⟨7, 7, 3⟩, VoxelType.Stone) := by
  refine ⟨?_, by norm_num [Vec3Q.normSq], by norm_num, ?_, ?_⟩
  · cases hres : raycast_voxel_3d ⟨1 / 20, 1 / 20, 1 / 20⟩
        ⟨2 / 3, 2 / 3, 1 / 3⟩ 1
        (fun cp => if cp = ⟨0, 0, 0⟩ then
            some (fun lp =>
              if lp = ⟨7, 7, 3⟩ then VoxelType.Stone else VoxelType.Air)
          else none) with
    | none => rfl
    | some hit =>
      exfalso
      obtain ⟨cp, lp, vt⟩ := hit
      have h1 : raycast_voxel_3d ⟨1 / 20, 1 / 20, 1 / 20⟩
          ⟨2 / 3, 2 / 3, 1 / 3⟩ 1
          (fun cp => if cp = ⟨0, 0, 0⟩ then
              some (fun lp =>
                if lp = ⟨7, 7, 3⟩ then VoxelType.Stone else VoxelType.Air)
            else none) =
          (raycastVisited ⟨1 / 20, 1 / 20, 1 / 20⟩ ⟨2 / 3, 2 / 3, 1 / 3⟩ 1
            (fun cp => if cp = ⟨0, 0, 0⟩ then
                some (fun lp =>
                  if lp = ⟨7, 7, 3⟩ then VoxelType.Stone else VoxelType.Air)
              else none)).findSome?
            (testVoxel (fun cp => if cp = ⟨0, 0, 0⟩ then
                some (fun lp =>
                  if lp = ⟨7, 7, 3⟩ then VoxelType.Stone else VoxelType.Air)
              else none)) :=
        raycastLoop_eq_findSome _ _ _ _ _ _ _ _
      rw [h1, List.findSome?_eq_some_iff] at hres
      obtain ⟨l₁, a, l₂, hl, ha, -⟩ := hres
      have hmem : a ∈ raycastVisited ⟨1 / 20, 1 / 20, 1 / 20⟩
          ⟨2 / 3, 2 / 3, 1 / 3⟩ 1
          (fun cp => if cp = ⟨0, 0, 0⟩ then
              some (fun lp =>
                if lp = ⟨7, 7, 3⟩ then VoxelType.Stone else VoxelType.Air)
            else none) := by
        rw [hl]; simp
      obtain ⟨chunk, hchunk, hmat, hsolid, -⟩ :=
        testVoxel_inv _ a cp lp vt ha
      obtain ⟨hdx, hdy, hdz⟩ := testVoxel_target _ a cp lp vt ha
      have hcp : cp = ⟨0, 0, 0⟩ := by
        by_contra hne
        rw [if_neg hne] at hchunk
        exact Option.noConfusion hchunk
      rw [if_pos hcp] at hchunk
      have hchunkfun := Option.some.inj hchunk
      have hlp : lp = ⟨7, 7, 3⟩ := by
        by_contra hne
        rw [← hchunkfun] at hmat
        dsimp only at hmat
        rw [if_neg hne] at hmat
        rw [← hmat] at hsolid
        simp [VoxelType.is_solid] at hsolid
      have ha773 : a = ⟨7, 7, 3⟩ := by
        rw [hcp] at hdx hdy hdz
        rw [hlp] at hdx hdy hdz
        simp at hdx hdy hdz
        cases a
        simp at hdx hdy hdz
        simp only [IVec3.mk.injEq]
        omega
      have hsteps : rayStep ⟨2 / 3, 2 / 3, 1 / 3⟩ = ⟨1, 1, 1⟩ := by
        norm_num [rayStep]
      have hub := visited_measure_ub
        (fun cp => if cp = ⟨0, 0, 0⟩ then
            some (fun lp =>
              if lp = ⟨7, 7, 3⟩ then VoxelType.Stone else VoxelType.Air)
          else none)
        ⟨1 / 20, 1 / 20, 1 / 20⟩ 1 (rayStep ⟨2 / 3, 2 / 3, 1 / 3⟩)
        (tDeltaAxis (2 / 3), tDeltaAxis (2 / 3), tDeltaAxis (1 / 3))
        (rayStep_units _).1 (rayStep_units _).2.1 (rayStep_units _).2.2
        (raycastMaxSteps 1) (initVoxel ⟨1 / 20, 1 / 20, 1 / 20⟩)
        (initTMaxAxis (1 / 20) (2 / 3) (initVoxel ⟨1 / 20, 1 / 20, 1 / 20⟩).x,
         initTMaxAxis (1 / 20) (2 / 3) (initVoxel ⟨1 / 20, 1 / 20, 1 / 20⟩).y,
         initTMaxAxis (1 / 20) (1 / 3) (initVoxel ⟨1 / 20, 1 / 20, 1 / 20⟩).z)
        a hmem
      have hv0 : initVoxel ⟨1 / 20, 1 / 20, 1 / 20⟩ = ⟨0, 0, 0⟩ := by
        norm_num [initVoxel, VOXEL_SIZE]
      have hfuel : raycastMaxSteps 1 = 11 := by
        have h10 : truncQ (1 / VOXEL_SIZE) = 10 := by
          norm_num [truncQ, VOXEL_SIZE]
        rw [raycastMaxSteps, h10]
        rfl
      rw [ha773, hsteps, hv0, hfuel] at hub
      simp [stepMeasure] at hub
  · norm_num [voxelOf, world_to_voxel_3d, vec3q_add_unfold, Vec3Q.scale,
      VOXEL_SIZE, BASE_CHUNK_SIZE]
  · norm_num [testVoxel, world_to_voxel_3d, inChunkBounds, VOXEL_SIZE,
      BASE_CHUNK_SIZE, VoxelType.is_solid]

/-- C3 (amended): at break resolution, for every offset of the equipped
tool's destruction pattern that lands inside the same chunk on a currently
solid voxel, the voxel's material is set to `Air` (the density field is left
unchanged), a drop quantity is drawn from the tool/material quantity table —
Pickaxe vs Stone from the row `(8, 15)` — and a drop is spawned at the
corresponding world position for every nonzero quantity. -/
theorem break_resolution (tool : ToolType) (rng : ℕ → ℕ → ℕ → ℕ)
    (hrng : ∀ i a b, a ≤ b → a ≤ rng i a b ∧ rng i a b ≤ b)
    (c : ChunkM) (chunk_pos local_pos : IVec3) :
    (∀ o ∈ tool.get_destruction_pattern,
      inChunkBounds (local_pos + o) = true →
      (c.voxel_types (local_pos + o)).is_solid = true →
      (resolve_break tool rng c chunk_pos local_pos).1.voxel_types
        (local_pos + o) = .Air ∧
      (0 < (calcDropsRange tool (c.voxel_types (local_pos + o))).1 →
        ∃ e ∈ (resolve_break tool rng c chunk_pos local_pos).2,
          e.voxel_type = c.voxel_types (local_pos + o) ∧
          e.world_pos = dropWorldPos chunk_pos (local_pos + o))) ∧
    (resolve_break tool rng c chunk_pos local_pos).1.densities = c.densities ∧
    (∀ e ∈ (resolve_break tool rng c chunk_pos local_pos).2,
      0 < e.quantity ∧
      (calcDropsRange tool e.voxel_type).1 ≤ e.quantity ∧
      e.quantity ≤ (calcDropsRange tool e.voxel_type).2 ∧
      ∃ o ∈ tool.get_destruction_pattern,
        inChunkBounds (local_pos + o) = true ∧
        e.world_pos = dropWorldPos chunk_pos (local_pos + o)) ∧
    calcDropsRange .Pickaxe .Stone = (8, 15) := by
  refine ⟨fun o ho hb hs => ⟨?_, fun hmin => ?_⟩, ?_, fun e he => ?_, rfl⟩
  · exact applyPattern_destroys tool rng chunk_pos local_pos _ c 0 o ho hb hs
  · exact applyPattern_spawns tool rng hrng chunk_pos local_pos _ c 0 o ho hb
      hs hmin
  · exact applyPattern_densities tool rng chunk_pos local_pos _ c 0
  · exact applyPattern_events tool rng hrng chunk_pos local_pos _ c 0 e he

/-- C3 witness: resolving a Pickaxe break at local target `(5,5,5)` of an
all-Stone chunk turns the target to `Air`. -/
theorem break_resolution_witness :
    (resolve_break .Pickaxe (fun _ a _ => a)
      ⟨fun _ => VoxelType.Stone, fun _ => 1, false⟩ ⟨0, 0, 0⟩
      ⟨5, 5, 5⟩).1.voxel_types (⟨5, 5, 5⟩ + ⟨0, 0, 0⟩) = .Air :=
  ((break_resolution .Pickaxe (fun _ a _ => a) (fun _ a b h => ⟨le_refl a, h⟩)
      ⟨fun _ => VoxelType.Stone, fun _ => 1, false⟩ ⟨0, 0, 0⟩ ⟨5, 5, 5⟩).1
    ⟨0, 0, 0⟩ (by simp [ToolType.get_destruction_pattern])
    (by decide) (by decide)).1

/-- C3 counterexample to the claim as stated: resolving a bare-hands break
on a Stone voxel of density `1` sets the material to `Air` but leaves the
density at `1` — the density is NOT pushed negative
(`set_voxel_type` never touches the density field). -/
theorem break_density_unchanged_counterexample :
    (resolve_break .None (fun _ a _ => a)
      ⟨fun _ => VoxelType.Stone, fun _ => 1, false⟩ ⟨0, 0, 0⟩
      ⟨1, 1, 1⟩).1.voxel_types (⟨1, 1, 1⟩ + ⟨0, 0, 0⟩) = .Air ∧
    (resolve_break .None (fun _ a _ => a)
      ⟨fun _ => VoxelType.Stone, fun _ => 1, false⟩ ⟨0, 0, 0⟩
      ⟨1, 1, 1⟩).1.densities ⟨1, 1, 1⟩ = 1 ∧
    ¬ (resolve_break .None (fun _ a _ => a)
      ⟨fun _ => VoxelType.Stone, fun _ => 1, false⟩ ⟨0, 0, 0⟩
      ⟨1, 1, 1⟩).1.densities ⟨1, 1, 1⟩ < 0 := by
  refine ⟨?_, ?_, ?_⟩ <;> decide

end BevyGame
